/-
Verification of the httpauth authentication policies (Basic, Digest, Cookie).

The Go sources are shallowly embedded here.  Go strings are modelled as
lists of bytes (`List Nat`, each < 256), Go maps as association lists with
Go's assignment semantics (`alSet` updates in place or appends), Go pointers
as indices into an allocation table that is never shrunk (mirroring the
garbage-collected heap: a pointer held by the priority queue stays valid
even after the record is deleted from a map), and `container/heap` by a
direct translation of its `up`/`down` sift loops.  Operations that can
panic in Go (out-of-range slicing, nil-pointer dereference) return
`Option`, with `none` modelling the panic.  `time.Now().UnixNano()` and
the random nonce generator are passed in as explicit arguments.
-/
import Mathlib

set_option maxRecDepth 100000

namespace Httpauth

/-! ### Byte strings -/

/-- UTF-8 encoding of one character, as Go produces for `[]byte(string)`. -/
def utf8Bytes (c : Char) : List Nat :=
  let n := c.toNat
  if n < 0x80 then [n]
  else if n < 0x800 then [0xC0 + n / 0x40, 0x80 + n % 0x40]
  else if n < 0x10000 then
    [0xE0 + n / 0x1000, 0x80 + (n / 0x40) % 0x40, 0x80 + n % 0x40]
  else
    [0xF0 + n / 0x40000, 0x80 + (n / 0x1000) % 0x40,
     0x80 + (n / 0x40) % 0x40, 0x80 + n % 0x40]

/-- The byte sequence of a Go string (UTF-8). -/
def str (s : String) : List Nat :=
  s.data.foldr (fun c acc => utf8Bytes c ++ acc) []

/-- `strings.IndexRune` restricted to ASCII needles: the index of the first
occurrence of byte `b`, `none` standing for Go's `-1`. -/
def indexByte : List Nat → Nat → Option Nat
  | [], _ => none
  | c :: t, b => if c = b then some 0 else (indexByte t b).map (· + 1)

/-- Go slice `s[i:]`; panics (`none`) when `i > len(s)`. -/
def goDrop (l : List Nat) (i : Nat) : Option (List Nat) :=
  if i ≤ l.length then some (l.drop i) else none

/-- `strings.Split` on a single byte separator. -/
def splitOnByte (b : Nat) : List Nat → List (List Nat)
  | [] => [[]]
  | c :: rest =>
    match splitOnByte b rest with
    | [] => [[]]
    | h :: t => if c = b then [] :: h :: t else (c :: h) :: t

/-- One side of `strings.Trim(s, "\x22 ")`: drop leading quote/space bytes. -/
def trimLeftQS (l : List Nat) : List Nat :=
  l.dropWhile (fun c => c == 34 || c == 32)

/-- `strings.Trim(s, "\x22 ")`: drop leading and trailing quote/space bytes. -/
def trimQS (l : List Nat) : List Nat :=
  ((trimLeftQS l).reverse.dropWhile (fun c => c == 34 || c == 32)).reverse

/-! ### Association lists (Go maps, allocation tables) -/

variable {α β : Type}

/-- Go map read, as a partial lookup. -/
def alGet [DecidableEq α] (k : α) : List (α × β) → Option β
  | [] => none
  | (k', v) :: t => if k = k' then some v else alGet k t

/-- Go map assignment `m[k] = v`: update in place or append. -/
def alSet [DecidableEq α] (k : α) (v : β) : List (α × β) → List (α × β)
  | [] => [(k, v)]
  | (k', v') :: t => if k = k' then (k, v) :: t else (k', v') :: alSet k v t

/-- Go `delete(m, k)`. -/
def alDel [DecidableEq α] (k : α) (l : List (α × β)) : List (α × β) :=
  l.filter (fun p => ¬ p.1 = k)

/-- Go map read with the zero value for missing keys. -/
def mapGet [DecidableEq α] [Inhabited β] (m : List (α × β)) (k : α) : β :=
  (alGet k m).getD default

/-! ### MD5 (crypto/md5), on byte lists, arithmetic in `Nat` mod 2^32 -/

/-- The 64 sine-derived round constants of MD5 (RFC 1321 T table). -/
def md5K : List Nat :=
  [0xd76aa478, 0xe8c7b756, 0x242070db, 0xc1bdceee,
   0xf57c0faf, 0x4787c62a, 0xa8304613, 0xfd469501,
   0x698098d8, 0x8b44f7af, 0xffff5bb1, 0x895cd7be,
   0x6b901122, 0xfd987193, 0xa679438e, 0x49b40821,
   0xf61e2562, 0xc040b340, 0x265e5a51, 0xe9b6c7aa,
   0xd62f105d, 0x02441453, 0xd8a1e681, 0xe7d3fbc8,
   0x21e1cde6, 0xc33707d6, 0xf4d50d87, 0x455a14ed,
   0xa9e3e905, 0xfcefa3f8, 0x676f02d9, 0x8d2a4c8a,
   0xfffa3942, 0x8771f681, 0x6d9d6122, 0xfde5380c,
   0xa4beea44, 0x4bdecfa9, 0xf6bb4b60, 0xbebfbc70,
   0x289b7ec6, 0xeaa127fa, 0xd4ef3085, 0x04881d05,
   0xd9d4d039, 0xe6db99e5, 0x1fa27cf8, 0xc4ac5665,
   0xf4292244, 0x432aff97, 0xab9423a7, 0xfc93a039,
   0x655b59c3, 0x8f0ccc92, 0xffeff47d, 0x85845dd1,
   0x6fa87e4f, 0xfe2ce6e0, 0xa3014314, 0x4e0811a1,
   0xf7537e82, 0xbd3af235, 0x2ad7d2bb, 0xeb86d391]

/-- The per-round left-rotation amounts of MD5. -/
def md5S : List Nat :=
  [7, 12, 17, 22, 7, 12, 17, 22, 7, 12, 17, 22, 7, 12, 17, 22,
   5, 9, 14, 20, 5, 9, 14, 20, 5, 9, 14, 20, 5, 9, 14, 20,
   4, 11, 16, 23, 4, 11, 16, 23, 4, 11, 16, 23, 4, 11, 16, 23,
   6, 10, 15, 21, 6, 10, 15, 21, 6, 10, 15, 21, 6, 10, 15, 21]

/-- 32-bit left rotation. -/
def rotl32 (x s : Nat) : Nat :=
  ((x <<< s) ||| (x >>> (32 - s))) % 4294967296

/-- MD5 round mixing function for step `i`. -/
def md5Mix (i b c d : Nat) : Nat :=
  if i < 16 then (b &&& c) ||| ((b ^^^ 0xffffffff) &&& d)
  else if i < 32 then (d &&& b) ||| ((d ^^^ 0xffffffff) &&& c)
  else if i < 48 then b ^^^ c ^^^ d
  else c ^^^ (b ||| (d ^^^ 0xffffffff))

/-- Message-word schedule index for step `i`. -/
def md5G (i : Nat) : Nat :=
  if i < 16 then i
  else if i < 32 then (5 * i + 1) % 16
  else if i < 48 then (3 * i + 5) % 16
  else (7 * i) % 16

/-- The eight little-endian bytes of a 64-bit length field. -/
def le8 (n : Nat) : List Nat :=
  [n % 256, (n >>> 8) % 256, (n >>> 16) % 256, (n >>> 24) % 256,
   (n >>> 32) % 256, (n >>> 40) % 256, (n >>> 48) % 256, (n >>> 56) % 256]

/-- MD5 padding: a 0x80 byte, zeros to 56 mod 64, then the bit length. -/
def md5Pad (m : List Nat) : List Nat :=
  m ++ [0x80] ++ List.replicate ((119 - m.length % 64) % 64) 0
    ++ le8 ((8 * m.length) % 18446744073709551616)

/-- The sixteen little-endian 32-bit words of one 64-byte block. -/
def md5Words (block : List Nat) : List Nat :=
  (List.range 16).map fun j =>
    block.getD (4 * j) 0 + 256 * block.getD (4 * j + 1) 0 +
    65536 * block.getD (4 * j + 2) 0 + 16777216 * block.getD (4 * j + 3) 0

/-- One of the 64 steps of the MD5 compression function. -/
def md5Step (w : List Nat) (st : Nat × Nat × Nat × Nat) (i : Nat) :
    Nat × Nat × Nat × Nat :=
  let (a, b, c, d) := st
  let f := md5Mix i b c d
  let tmp := (a + f + md5K.getD i 0 + w.getD (md5G i) 0) % 4294967296
  (d, (b + rotl32 tmp (md5S.getD i 0)) % 4294967296, b, c)

/-- The MD5 compression function on one 64-byte block. -/
def md5Block (st : Nat × Nat × Nat × Nat) (block : List Nat) :
    Nat × Nat × Nat × Nat :=
  let w := md5Words block
  let (a, b, c, d) := (List.range 64).foldl (md5Step w) st
  let (a0, b0, c0, d0) := st
  ((a0 + a) % 4294967296, (b0 + b) % 4294967296,
   (c0 + c) % 4294967296, (d0 + d) % 4294967296)

/-- Split a padded message into 64-byte blocks (fuel = list length). -/
def chunk64 : Nat → List Nat → List (List Nat)
  | 0, _ => []
  | _, [] => []
  | fuel + 1, l => l.take 64 :: chunk64 fuel (l.drop 64)

/-- The four little-endian output bytes of a 32-bit word. -/
def le4 (n : Nat) : List Nat :=
  [n % 256, (n >>> 8) % 256, (n >>> 16) % 256, (n >>> 24) % 256]

/-- The 16 digest bytes of MD5. -/
def md5Bytes (m : List Nat) : List Nat :=
  let blocks := chunk64 (md5Pad m).length (md5Pad m)
  let (a, b, c, d) :=
    blocks.foldl md5Block (0x67452301, 0xefcdab89, 0x98badcfe, 0x10325476)
  le4 a ++ le4 b ++ le4 c ++ le4 d

/-- One lowercase hexadecimal digit, as a byte. -/
def hexDigit (n : Nat) : Nat := if n < 10 then 48 + n else 87 + n

/-- Lowercase hex rendering of a byte list, as `fmt.Sprintf("%x", b)`. -/
def hexBytes (l : List Nat) : List Nat :=
  l.foldr (fun b acc => hexDigit (b / 16) :: hexDigit (b % 16) :: acc) []

/-- `calcHash(h, data)` from digest.go: the hex MD5 digest of `data`
(the `hash.Hash` field is reset before each use, so it is a pure function). -/
def calcHash (data : List Nat) : List Nat := hexBytes (md5Bytes data)

/-! ### strconv.ParseUint(s, 16, 64) and encoding/base64 -/

/-- The value of one hexadecimal digit byte, if any. -/
def hexVal (c : Nat) : Option Nat :=
  if 48 ≤ c ∧ c ≤ 57 then some (c - 48)
  else if 97 ≤ c ∧ c ≤ 102 then some (c - 87)
  else if 65 ≤ c ∧ c ≤ 70 then some (c - 55)
  else none

/-- `strconv.ParseUint(s, 16, 64)`: rejects the empty string, non-hex
digits, and values that do not fit in 64 bits. -/
def parseUintHex64 (s : List Nat) : Option Nat :=
  if s = [] then none
  else
    s.foldl
      (fun acc c =>
        match acc, hexVal c with
        | some a, some d =>
            if a * 16 + d < 18446744073709551616 then some (a * 16 + d)
            else none
        | _, _ => none)
      (some 0)

/-- The value of one standard base64 alphabet byte, if any. -/
def b64Val (c : Nat) : Option Nat :=
  if 65 ≤ c ∧ c ≤ 90 then some (c - 65)
  else if 97 ≤ c ∧ c ≤ 122 then some (c - 71)
  else if 48 ≤ c ∧ c ≤ 57 then some (c + 4)
  else if c = 43 then some 62
  else if c = 47 then some 63
  else none

/-- Decode base64 four bytes at a time; `=` padding only in the final
quantum, length must be a multiple of four. -/
def b64Groups : List Nat → Option (List Nat)
  | [] => some []
  | a :: b :: c :: d :: rest =>
    match b64Val a, b64Val b with
    | some va, some vb =>
      if c = 61 then
        if d = 61 ∧ rest = [] then some [va * 4 + vb / 16] else none
      else
        match b64Val c with
        | some vc =>
          if d = 61 then
            if rest = [] then some [va * 4 + vb / 16, (vb % 16) * 16 + vc / 4]
            else none
          else
            match b64Val d with
            | some vd =>
              (b64Groups rest).map
                ([va * 4 + vb / 16, (vb % 16) * 16 + vc / 4, (vc % 4) * 64 + vd] ++ ·)
            | none => none
        | none => none
    | _, _ => none
  | _ => none

/-- `base64.StdEncoding.DecodeString`: newlines are skipped, everything
else must be standard-alphabet quanta with trailing padding. -/
def base64Decode (l : List Nat) : Option (List Nat) :=
  b64Groups (l.filter (fun c => ¬ (c = 13 ∨ c = 10)))

/-! ### net/http boundary: requests and response writers -/

/-- An inbound HTTP request, reduced to the parts the policies read.
`cookies` models the parsed `Cookie` header; `r.Cookie(name)` is a lookup
returning an error (here `none`) when the cookie is absent. -/
structure Request where
  method : List Nat
  urlPath : List Nat
  headers : List (List Nat × List Nat)
  cookies : List (List Nat × List Nat)

/-- An outbound response: headers set, status written, body written.
`WriteHeader` is modelled as recording the code (each policy operation
writes at most once per call). -/
structure ResponseWriter where
  headers : List (List Nat × List Nat)
  status : Option Nat
  body : List Nat
deriving DecidableEq

/-- `r.Header.Get(k)`: empty string when the header is missing. -/
def headerGet (r : Request) (k : List Nat) : List Nat :=
  (alGet k r.headers).getD []

/-- VerifyXsrfHeader (xsrf.go): the header key must merely be present. -/
def VerifyXsrfHeader (r : Request) : Bool :=
  (alGet (str "X-Xsrf-Cookie") r.headers).isSome

/-- The length of a nonce (nonce.go). -/
def nonceLen : Nat := 16

/-! ### Basic policy (basic.go) -/

/-- The Basic authentication policy: a realm and an authenticator. -/
structure Basic where
  Realm : List Nat
  Auth : List Nat → List Nat → Bool

/-- `Basic.Authorize`.  `none` models a Go panic (there is none: every
slice index is derived from a found byte position). -/
def basicAuthorize (a : Basic) (r : Request) : Option (List Nat) :=
  let token := headerGet r (str "Authorization")
  if token = [] then some [] else
  match indexByte token 32 with
  | none => some []
  | some ndx =>
    if ndx < 1 then some [] else
    if token.take ndx ≠ str "Basic" then some [] else
    match goDrop token (ndx + 1) with
    | none => none
    | some b64 =>
      match base64Decode b64 with
      | none => some []
      | some buf =>
        match indexByte buf 58 with
        | none => some []
        | some ndx2 =>
          if ndx2 < 1 then some [] else
          match goDrop buf (ndx2 + 1) with
          | none => none
          | some pw =>
            if a.Auth (buf.take ndx2) pw then some (buf.take ndx2) else some []

/-! ### container/heap on an id slice

The Go priority queues hold `*clientInfo` pointers; here the slice holds
allocation ids and `key` dereferences an id to its current `lastContact`.
The `up`/`down` loops of container/heap are translated with an explicit
fuel argument (structural recursion, so terms reduce); the fuel given at
each call site strictly exceeds the number of iterations the Go loop can
make, so the translation computes the same result. -/

/-- Swap two positions of the backing slice. -/
def listSwap (l : List Nat) (i j : Nat) : List Nat :=
  (l.set i (l.getD j 0)).set j (l.getD i 0)

/-- `up(h, j)` from container/heap; fuel bounds the iterations (j shrinks). -/
def siftUpF (key : Nat → Int) : Nat → List Nat → Nat → List Nat
  | 0, l, _ => l
  | fuel + 1, l, j =>
    if j = 0 then l
    else
      let i := (j - 1) / 2
      if key (l.getD j 0) < key (l.getD i 0) then
        siftUpF key fuel (listSwap l i j) i
      else l

/-- `down(h, i, n)` from container/heap; fuel bounds the iterations
(i at least doubles while below n). -/
def siftDownF (key : Nat → Int) : Nat → List Nat → Nat → Nat → List Nat
  | 0, l, _, _ => l
  | fuel + 1, l, i, n =>
    let j1 := 2 * i + 1
    if j1 < n then
      let j2 := j1 + 1
      let j := if j2 < n ∧ key (l.getD j2 0) < key (l.getD j1 0) then j2 else j1
      if key (l.getD j 0) < key (l.getD i 0) then
        siftDownF key fuel (listSwap l i j) j n
      else l
    else l

/-- `heap.Push`: append then sift up from the last position. -/
def heapPush (key : Nat → Int) (l : List Nat) (x : Nat) : List Nat :=
  siftUpF key (l.length + 1) (l ++ [x]) l.length

/-- `heap.Pop`: swap root and last, sift down, remove the last element.
Returns the removed id and the remaining slice; `none` on the empty slice
(all call sites are guarded by a non-emptiness test). -/
def heapPop (key : Nat → Int) (l : List Nat) : Option (Nat × List Nat) :=
  match l with
  | [] => none
  | _ :: _ =>
    let n := l.length - 1
    let l2 := siftDownF key (l.length + 1) (listSwap l 0 n) 0 n
    some (l2.getD n 0, l2.take n)

/-- `MinValue` of both priority queues: the `lastContact` of the LAST
element of the backing slice (`pq[n-1]`), exactly as the source writes it
— not the heap minimum `pq[0]`. -/
def minValue (key : Nat → Int) (l : List Nat) : Int :=
  key (l.getD (l.length - 1) 0)

/-! ### Digest policy (digest.go) -/

/-- digestClientInfo: replay counter (uint64), last contact (unix nanos),
and the per-client nonce. -/
structure DigestClientInfo where
  numContacts : Nat
  lastContact : Int
  nonce : List Nat
deriving DecidableEq

/-- The cached client state of a Digest policy.  `recs` is the allocation
table standing for the Go heap: ids are never removed from it, matching
pointers that stay valid while referenced. -/
structure DigestCache where
  recs : List (Nat × DigestClientInfo)
  nextId : Nat
  clients : List (List Nat × Nat)
  lru : List Nat
deriving DecidableEq

/-- Dereference a digest record pointer. Ids stored in `clients` and `lru`
are always allocated, so the default is never read. -/
def derefD (recs : List (Nat × DigestClientInfo)) (id : Nat) : DigestClientInfo :=
  (alGet id recs).getD ⟨0, 0, []⟩

/-- The ordering key of the digest priority queue (`Less` compares the
records' current `lastContact`). -/
def digestKey (recs : List (Nat × DigestClientInfo)) (id : Nat) : Int :=
  (derefD recs id).lastContact

/-- The Digest policy: realm, password lookup, server opaque value,
residence duration (nanoseconds) and the client cache. -/
structure Digest where
  Realm : List Nat
  Auth : List Nat → List Nat
  opaq : List Nat
  ClientCacheResidence : Int
  cache : DigestCache

/-- One pass of the eviction loop body; fuel = initial slice length (each
iteration pops one element, so the loop cannot run more often). -/
def digestEvictGo (residence now : Int) : Nat → DigestCache → DigestCache
  | 0, c => c
  | fuel + 1, c =>
    if 0 < c.lru.length ∧ minValue (digestKey c.recs) c.lru + residence ≤ now then
      match heapPop (digestKey c.recs) c.lru with
      | none => c
      | some (id, lru') =>
        let client := derefD c.recs id
        digestEvictGo residence now fuel
          { c with lru := lru', clients := alDel client.nonce c.clients }
    else c

/-- `Digest.evictLeastRecentlySeen`. -/
def digestEvict (a : Digest) (now : Int) : Digest :=
  { a with cache := digestEvictGo a.ClientCacheResidence now a.cache.lru.length a.cache }

/-- Outcome of the header-parsing prefix of `Digest.Authorize`:
rejection, a Go panic, or the parameter map. -/
inductive ParseR where
  | reject : ParseR
  | fault : ParseR
  | ok : List (List Nat × List Nat) → ParseR

/-- One iteration of the name/value loop: `none` is a Go panic, `some none`
a malformed pair that is skipped, otherwise the trimmed pair. -/
def parsePair (part : List Nat) : Option (Option (List Nat × List Nat)) :=
  match indexByte part 61 with
  | none => some none
  | some ndx =>
    if ndx < 1 then some none
    else
      match goDrop part (ndx + 1) with
      | none => none
      | some rest => some (some (trimQS (part.take ndx), trimQS rest))

/-- The name/value loop of `Digest.Authorize`, folding pairs into the map
left to right (later pairs overwrite earlier ones). -/
def parseParamsGo : List (List Nat × List Nat) → List (List Nat) →
    Option (List (List Nat × List Nat))
  | acc, [] => some acc
  | acc, part :: rest =>
    match parsePair part with
    | none => none
    | some none => parseParamsGo acc rest
    | some (some (k, v)) => parseParamsGo (alSet k v acc) rest

/-- Lines 341-366 of digest.go: extract and parse the `Authorization`
header of a request into the digest parameter map. -/
def digestRequestParams (r : Request) : ParseR :=
  let token := headerGet r (str "Authorization")
  if token = [] then .reject
  else
    match indexByte token 32 with
    | none => .reject
    | some ndx =>
      if ndx < 1 then .reject
      else if token.take ndx ≠ str "Digest" then .reject
      else
        match goDrop token (ndx + 1) with
        | none => .fault
        | some tok2 =>
          match parseParamsGo [] (splitOnByte 44 tok2) with
          | none => .fault
          | some params => .ok params

/-- Lines 368-407 of digest.go: validate the parsed parameters, check the
hash chain and the replay counter, and update the matched record. -/
def digestValidate (a : Digest) (r : Request) (now : Int)
    (params : List (List Nat × List Nat)) : List Nat × Digest :=
  if mapGet params (str "opaque") ≠ a.opaq ∨
     mapGet params (str "algorithm") ≠ str "MD5" ∨
     mapGet params (str "qop") ≠ str "auth" then ([], a)
  else if mapGet params (str "uri") ≠ r.urlPath then ([], a)
  else
    let username := mapGet params (str "username")
    if username = [] then ([], a)
    else
      let password := a.Auth username
      if password = [] then ([], a)
      else
        let ha1 := calcHash (username ++ str ":" ++ a.Realm ++ str ":" ++ password)
        let ha2 := calcHash (r.method ++ str ":" ++ r.urlPath)
        let ha3 := calcHash (ha1 ++ str ":" ++ mapGet params (str "nonce") ++
          str ":" ++ mapGet params (str "nc") ++ str ":" ++
          mapGet params (str "cnonce") ++ str ":" ++ mapGet params (str "qop") ++
          str ":" ++ ha2)
        if ha3 ≠ mapGet params (str "response") then ([], a)
        else
          match parseUintHex64 (mapGet params (str "nc")) with
          | none => ([], a)
          | some numContacts =>
            match alGet (mapGet params (str "nonce")) a.cache.clients with
            | none => ([], a)
            | some id =>
              let client := derefD a.cache.recs id
              if client.numContacts ≠ 0 ∧ numContacts ≤ client.numContacts then
                ([], a)
              else
                (username,
                 { a with cache := { a.cache with
                     recs := alSet id
                       { client with numContacts := numContacts, lastContact := now }
                       a.cache.recs } })

/-- `Digest.Authorize`; `none` models a Go panic. -/
def digestAuthorize (a : Digest) (r : Request) (now : Int) :
    Option (List Nat × Digest) :=
  match digestRequestParams r with
  | .fault => none
  | .reject => some ([], a)
  | .ok params => some (digestValidate a r now params)

/-- `Digest.NotifyAuthRequired`: evict, then create a record for a fresh
nonce (`gen` is the outcome of `createNonce`), push it, and emit the
challenge; on generator failure, reply 500 via `http.Error`. -/
def digestNotifyAuthRequired (a : Digest) (w : ResponseWriter)
    (gen : Option (List Nat)) (now : Int) : ResponseWriter × Digest :=
  let a1 := digestEvict a now
  match gen with
  | none =>
    ({ w with status := some 500, body := w.body ++ str "Internal server error.\n" }, a1)
  | some nonce =>
    let cache := a1.cache
    let ci : DigestClientInfo := ⟨0, now, nonce⟩
    let recs' := alSet cache.nextId ci cache.recs
    let cache' : DigestCache :=
      { recs := recs'
        nextId := cache.nextId + 1
        clients := alSet nonce cache.nextId cache.clients
        lru := heapPush (digestKey recs') cache.lru cache.nextId }
    let hdr := str "Digest realm=\"" ++ a.Realm ++ str "\", nonce=\"" ++ nonce ++
      str "\", opaque=\"" ++ a.opaq ++ str "\", algorithm=\"MD5\", qop=\"auth\""
    ({ w with headers := alSet (str "WWW-Authenticate") hdr w.headers,
              status := some 401 },
     { a1 with cache := cache' })

/-! ### Cookie policy (cookie.go) -/

/-- cookieClientInfo: username, last contact (unix nanos), session nonce. -/
structure CookieClientInfo where
  username : List Nat
  lastContact : Int
  nonce : List Nat
deriving DecidableEq

/-- The cached session state of a Cookie policy (allocation table as for
Digest, by-nonce and by-user indices, and the eviction priority queue). -/
structure CookieCache where
  recs : List (Nat × CookieClientInfo)
  nextId : Nat
  clientsByNonce : List (List Nat × Nat)
  clientsByUser : List (List Nat × Nat)
  lru : List Nat
deriving DecidableEq

/-- Dereference a cookie record pointer. -/
def derefC (recs : List (Nat × CookieClientInfo)) (id : Nat) : CookieClientInfo :=
  (alGet id recs).getD ⟨[], 0, []⟩

/-- The ordering key of the cookie priority queue. -/
def cookieKey (recs : List (Nat × CookieClientInfo)) (id : Nat) : Int :=
  (derefC recs id).lastContact

/-- The Cookie policy (the mutex serializes the operations; the embedding
runs them atomically). -/
structure Cookie where
  Realm : List Nat
  Auth : List Nat → List Nat → Bool
  LoginPage : List Nat
  Path : List Nat
  RequireXsrfHeader : Bool
  ClientCacheResidence : Int
  cache : CookieCache

/-- The default value for ClientCacheResidence (1 hour, in nanoseconds). -/
def DefaultClientCacheResidence : Int := 3600000000000

/-- `NewCookie`. -/
def NewCookie (realm loginPageUrl : List Nat)
    (auth : List Nat → List Nat → Bool) : Cookie :=
  ⟨realm, auth, loginPageUrl, str "/", false, DefaultClientCacheResidence,
   ⟨[], 0, [], [], []⟩⟩

/-- One pass of the cookie eviction loop (fuel = initial slice length). -/
def cookieEvictGo (residence now : Int) : Nat → CookieCache → CookieCache
  | 0, c => c
  | fuel + 1, c =>
    if 0 < c.lru.length ∧ minValue (cookieKey c.recs) c.lru + residence ≤ now then
      match heapPop (cookieKey c.recs) c.lru with
      | none => c
      | some (id, lru') =>
        let client := derefC c.recs id
        cookieEvictGo residence now fuel
          { c with lru := lru',
                   clientsByNonce := alDel client.nonce c.clientsByNonce,
                   clientsByUser := alDel client.username c.clientsByUser }
    else c

/-- `Cookie.evictLeastRecentlySeen`. -/
def cookieEvict (a : Cookie) (now : Int) : Cookie :=
  { a with cache := cookieEvictGo a.ClientCacheResidence now a.cache.lru.length a.cache }

/-- `Cookie.Authorize`: XSRF gate, cookie extraction (error and empty and
wrong-length values rejected), then the by-nonce lookup that refreshes the
record's timestamp and returns its username. -/
def cookieAuthorize (a : Cookie) (r : Request) (now : Int) :
    Option (List Nat × Cookie) :=
  if a.RequireXsrfHeader ∧ ¬ VerifyXsrfHeader r then some ([], a)
  else
    match alGet (str "Authorization") r.cookies with
    | none => some ([], a)
    | some v =>
      if v = [] then some ([], a)
      else if v.length ≠ nonceLen then some ([], a)
      else
        match alGet v a.cache.clientsByNonce with
        | none => some ([], a)
        | some id =>
          let client := derefC a.cache.recs id
          some (client.username,
            { a with cache := { a.cache with
                recs := alSet id { client with lastContact := now } a.cache.recs } })

/-- `Cookie.NotifyAuthRequired`: redirect to the login page (307), a short
HTML note for GET requests, then lazy eviction.  The body note uses the
escaped login page exactly as the source builds it. -/
def htmlEscapeByte (c : Nat) : List Nat :=
  if c = 38 then str "&amp;"
  else if c = 39 then str "&#39;"
  else if c = 60 then str "&lt;"
  else if c = 62 then str "&gt;"
  else if c = 34 then str "&#34;"
  else [c]

/-- `html.EscapeString` on bytes. -/
def htmlEscape (l : List Nat) : List Nat :=
  l.foldr (fun c acc => htmlEscapeByte c ++ acc) []

/-- `Cookie.NotifyAuthRequired`. -/
def cookieNotifyAuthRequired (a : Cookie) (w : ResponseWriter) (r : Request)
    (now : Int) : ResponseWriter × Cookie :=
  let w1 := { w with headers := alSet (str "Location") a.LoginPage w.headers,
                     status := some 307 }
  let note := str "<a href=\"" ++ htmlEscape a.LoginPage ++ str "\">Temporary Redirect</a>.\n"
  let w2 := if r.method = str "GET" then { w1 with body := w1.body ++ note } else w1
  (w2, cookieEvict a now)

/-- The error outcomes of `createSession`. -/
inductive SessionError where
  | badUsernameOrPassword : SessionError
  | nonceFailure : SessionError
deriving DecidableEq

/-- `Cookie.createSession`: authenticate, generate a nonce (`gen` is the
outcome of `createNonce`), then either refresh the existing session of
this username or insert a new record into both maps.  Faithful to the
source, the new record is NOT pushed onto the `lru` priority queue. -/
def createSession (a : Cookie) (username password : List Nat)
    (gen : Option (List Nat)) (now : Int) :
    Except SessionError (List Nat × Cookie) :=
  if ¬ a.Auth username password then .error .badUsernameOrPassword
  else
    match gen with
    | none => .error .nonceFailure
    | some nonce =>
      match alGet username a.cache.clientsByUser with
      | some id =>
        let ci := derefC a.cache.recs id
        .ok (ci.nonce,
          { a with cache := { a.cache with
              recs := alSet id { ci with lastContact := now } a.cache.recs } })
      | none =>
        let ci : CookieClientInfo := ⟨username, now, nonce⟩
        .ok (nonce,
          { a with cache := { a.cache with
              recs := alSet a.cache.nextId ci a.cache.recs,
              nextId := a.cache.nextId + 1,
              clientsByNonce := alSet nonce a.cache.nextId a.cache.clientsByNonce,
              clientsByUser := alSet username a.cache.nextId a.cache.clientsByUser } })

/-- `Cookie.destroySession`: remove the record from both maps; its heap
entry (if any) is left in place. -/
def destroySession (a : Cookie) (nonce : List Nat) : Cookie :=
  match alGet nonce a.cache.clientsByNonce with
  | none => a
  | some id =>
    let client := derefC a.cache.recs id
    { a with cache := { a.cache with
        clientsByNonce := alDel nonce a.cache.clientsByNonce,
        clientsByUser := alDel client.username a.cache.clientsByUser } }

/-- `Cookie.Login`: create the session, then set the session cookie. -/
def cookieLogin (a : Cookie) (w : ResponseWriter) (username password : List Nat)
    (gen : Option (List Nat)) (now : Int) :
    Except SessionError (ResponseWriter × Cookie) :=
  match createSession a username password gen now with
  | .error e => .error e
  | .ok (nonce, a') =>
    let hs := alSet (str "Set-Cookie") (str "Authorization=" ++ nonce) w.headers
    .ok ({ w with headers := hs }, a')

/-- `Cookie.Logout`: the source tests `err == nil || token.Value != ""`;
when the cookie is absent, `err != nil` and `token` is nil, so evaluating
the second disjunct dereferences a nil pointer — modelled as `none`. -/
def cookieLogout (a : Cookie) (w : ResponseWriter) (r : Request) :
    Option (ResponseWriter × Cookie) :=
  match alGet (str "Authorization") r.cookies with
  | some v =>
    let a' := destroySession a v
    let expired := str "Authorization=; Expires=Thu, 01 Jan 1970 00:00:00 GMT"
    some ({ w with headers := alSet (str "Set-Cookie") expired w.headers }, a')
  | none => none

/-! ### Concrete scenarios used by the theorems below -/

/-- A fresh response writer. -/
def exW : ResponseWriter := ⟨[], none, []⟩

/-- A plain GET request with no credentials. -/
def exGetReq : Request := ⟨str "GET", str "/", [], []⟩

/-- First generated digest nonce of the scenario. -/
def exNonceA : List Nat := str "0123456789abcdef"

/-- Second generated digest nonce of the scenario. -/
def exNonceB : List Nat := str "ABCDEFGHIJKLMNOP"

/-- A Digest policy with realm `golang`, the identity password lookup of
digest_test.go, opaque `op` and a 100ns residence duration. -/
def exDigest0 : Digest := ⟨str "golang", fun u => u, str "op", 100, ⟨[], 0, [], []⟩⟩

/-- After one challenge at t=0 (nonce A). -/
def exDigest1 : Digest := (digestNotifyAuthRequired exDigest0 exW (some exNonceA) 0).2

/-- After a second challenge at t=50 (nonce B). -/
def exDigest2 : Digest := (digestNotifyAuthRequired exDigest1 exW (some exNonceB) 50).2

/-- A digest Authorization header for nonce A, uri /p, user `user`. -/
def exAuthHdr (nc cn resp : String) : List Nat :=
  str ("Digest username=\"user\", realm=\"golang\", nonce=\"0123456789abcdef\", " ++
    "uri=\"/p\", qop=auth, nc=" ++ nc ++ ", cnonce=\"" ++ cn ++
    "\", response=\"" ++ resp ++ "\", opaque=\"op\", algorithm=MD5")

/-- A valid first request on nonce A: nc=1, correct MD5 response. -/
def exReq1 : Request :=
  ⟨str "GET", str "/p",
   [(str "Authorization", exAuthHdr "00000001" "cn" "c42afbb457bf61138fcae0799fe2c770")], []⟩

/-- A replay on nonce A: nc=1 again (fresh cnonce, correct response). -/
def exReqReplay : Request :=
  ⟨str "GET", str "/p",
   [(str "Authorization", exAuthHdr "00000001" "cn2" "0c6165533721ec2a00b308599b04b6c9")], []⟩

/-- A continuation on nonce A: nc=2, correct response. -/
def exReqNext : Request :=
  ⟨str "GET", str "/p",
   [(str "Authorization", exAuthHdr "00000002" "cn" "a98ea7978b3a5e75ddea857a0488e83e")], []⟩

/-- The state after the successful authorization of `exReq1` at t=100
(record of nonce A refreshed in place: counter 1, lastContact 100). -/
def exDigest3 : Digest :=
  match digestAuthorize exDigest2 exReq1 100 with
  | some (_, a) => a
  | none => exDigest2

/-- A hand-written cookie cache of two records with distinct ages, both
indexed and both on the (correctly ordered) priority queue. -/
def exStaleCache : CookieCache :=
  ⟨[(0, ⟨str "u1", 0, str "nonceAnonceAnonc"⟩),
    (1, ⟨str "u2", 50, str "nonceBnonceBnonc"⟩)], 2,
   [(str "nonceAnonceAnonc", 0), (str "nonceBnonceBnonc", 1)],
   [(str "u1", 0), (str "u2", 1)], [0, 1]⟩

/-- A Cookie policy over `exStaleCache` with residence 100ns. -/
def exCookieStale : Cookie :=
  ⟨str "r", fun _ _ => false, str "/login", str "/", false, 100, exStaleCache⟩

/-- A fresh Cookie policy whose authenticator accepts everything. -/
def exCookieNew : Cookie := NewCookie (str "r") (str "/login") (fun _ _ => true)

/-- A 16-byte session nonce. -/
def exNonce16 : List Nat := str "AAAAAAAAAAAAAAAA"

/-! ### C2: eviction exactness fails -/

/-! ### C3: records created by createSession never reach the heap -/

/-! ### C5: a fresh record can be evicted -/

/-! ### C10: Logout panics on a cookie-less request -/

/-- The digest state left by a failing authorization of the credential-less
`exGetReq` against `exDigest2`. -/
def exDigestFail : Digest :=
  match digestAuthorize exDigest2 exGetReq 100 with
  | some (_, a) => a
  | none => exDigest2

/-- The cookie state left by a failing authorization of the credential-less
`exGetReq` against `exCookieStale`. -/
def exCookieFail : Cookie :=
  match cookieAuthorize exCookieStale exGetReq 100 with
  | some (_, a) => a
  | none => exCookieStale

/-- The cookie policy state holding a session whose username is empty
(created through `createSession` with an authenticator that accepts the
empty username). -/
def exCookieEmptyUser : Cookie :=
  match createSession exCookieNew [] (str "pw") (some exNonce16) 5 with
  | .ok (_, a) => a
  | .error _ => exCookieNew

/-- A request carrying the session cookie of the empty-username record. -/
def exReqNonce16 : Request := ⟨str "GET", str "/", [], [(str "Authorization", exNonce16)]⟩

/-! ### C9: shape of the digest challenge -/

/-! ### C6: the digest hash chain gates every success -/

/-- The deterministic three-stage response computation of digest.go:
`HA3 = md5(HA1:nonce:nc:cnonce:qop:HA2)` with `HA1 = md5(user:realm:password)`
and `HA2 = md5(method:path)`, in lowercase hex. -/
def digestResponse (username realm password method path nonce nc cnonce qop :
    List Nat) : List Nat :=
  calcHash (calcHash (username ++ str ":" ++ realm ++ str ":" ++ password) ++
    str ":" ++ nonce ++ str ":" ++ nc ++ str ":" ++ cnonce ++ str ":" ++ qop ++
    str ":" ++ calcHash (method ++ str ":" ++ path))

/-- The parameter map of `exReq1`. -/
def exPs : List (List Nat × List Nat) :=
  match digestRequestParams exReq1 with
  | .ok ps => ps
  | _ => []

/-- The parameter map of `exReqReplay`. -/
def exPsReplay : List (List Nat × List Nat) :=
  match digestRequestParams exReqReplay with
  | .ok ps => ps
  | _ => []

/-- The parameter map of `exReqNext`. -/
def exPsNext : List (List Nat × List Nat) :=
  match digestRequestParams exReqNext with
  | .ok ps => ps
  | _ => []

/-! ### C4: idempotent session creation, one session per user -/

/-- The state left by the refresh branch of `createSession`. -/
def refreshedAt (a : Cookie) (id : Nat) (t : Int) : Cookie :=
  let ci := { derefC a.cache.recs id with lastContact := t }
  let cache := { a.cache with recs := alSet id ci a.cache.recs }
  { a with cache := cache }

/-- The state left by the insert branch of `createSession`. -/
def insertedAt (a : Cookie) (u g : List Nat) (t : Int) : Cookie :=
  let ci : CookieClientInfo := ⟨u, t, g⟩
  let cache := { a.cache with
    recs := alSet a.cache.nextId ci a.cache.recs,
    nextId := a.cache.nextId + 1,
    clientsByNonce := alSet g a.cache.nextId a.cache.clientsByNonce,
    clientsByUser := alSet u a.cache.nextId a.cache.clientsByUser }
  { a with cache := cache }

/-- The cookie states reachable by sequences of createSession, Authorize
and destroySession, starting from `NewCookie`. -/
inductive CookieReach : Cookie → Prop where
  | init (realm loginPage : List Nat) (auth : List Nat → List Nat → Bool) :
      CookieReach (NewCookie realm loginPage auth)
  | create {a : Cookie} {u p : List Nat} {gen : Option (List Nat)} {now : Int}
      {n : List Nat} {a' : Cookie} : CookieReach a →
      createSession a u p gen now = .ok (n, a') → CookieReach a'
  | authorize {a : Cookie} {r : Request} {now : Int} {u : List Nat} {a' : Cookie} :
      CookieReach a → cookieAuthorize a r now = some (u, a') → CookieReach a'
  | destroy {a : Cookie} (nonce : List Nat) : CookieReach a →
      CookieReach (destroySession a nonce)

/-! ### Theorems -/

theorem indexByte_lt {l : List Nat} {b i : Nat} :
    indexByte l b = some i → i < l.length := by
  induction l generalizing i with
  | nil => intro h; simp [indexByte] at h
  | cons c t ih =>
    intro h
    simp only [indexByte] at h
    by_cases hc : c = b
    · rw [if_pos hc] at h
      cases h
      simp
    · rw [if_neg hc] at h
      rw [Option.map_eq_some'] at h
      obtain ⟨j, hj, rfl⟩ := h
      have := ih hj
      simp only [List.length_cons]
      omega

theorem alGet_alSet_self [DecidableEq α] (k : α) (v : β) (l : List (α × β)) :
    alGet k (alSet k v l) = some v := by
  induction l with
  | nil => simp [alSet, alGet]
  | cons p t ih =>
    by_cases h : k = p.1
    · simp [alSet, alGet, h]
    · simp [alSet, alGet, h, ih]

theorem alGet_alSet_ne [DecidableEq α] {k k' : α} (v : β) (l : List (α × β))
    (h : k' ≠ k) : alGet k' (alSet k v l) = alGet k' l := by
  induction l with
  | nil => simp [alSet, alGet, h]
  | cons p t ih =>
    by_cases hk : k = p.1
    · subst hk; simp [alSet, alGet, h]
    · by_cases hk' : k' = p.1
      · simp [alSet, alGet, hk, hk']
      · simp [alSet, alGet, hk, hk', ih]

theorem alSet_keys_mem [DecidableEq α] {k x : α} {v : β} {l : List (α × β)}
    (hx : x ∈ (alSet k v l).map Prod.fst) : x = k ∨ x ∈ l.map Prod.fst := by
  induction l with
  | nil => simpa [alSet] using hx
  | cons q s ih =>
    by_cases hq : k = q.1
    · subst hq
      rcases (by simpa [alSet] using hx : x = q.1 ∨ x ∈ s.map Prod.fst) with h1 | h1
      · exact Or.inl h1
      · exact Or.inr (by simp [h1])
    · rcases (by simpa [alSet, hq] using hx :
          x = q.1 ∨ x ∈ (alSet k v s).map Prod.fst) with h1 | h1
      · exact Or.inr (by simp [h1])
      · rcases ih h1 with h2 | h2
        · exact Or.inl h2
        · exact Or.inr (by simp [h2])

theorem alSet_keys_nodup [DecidableEq α] (k : α) (v : β) (l : List (α × β))
    (h : (l.map Prod.fst).Nodup) : ((alSet k v l).map Prod.fst).Nodup := by
  induction l with
  | nil => simp [alSet]
  | cons p t ih =>
    simp only [List.map_cons, List.nodup_cons] at h
    by_cases hk : k = p.1
    · subst hk
      simpa [alSet, List.nodup_cons] using h
    · have ht := ih h.2
      simp only [alSet, if_neg hk, List.map_cons]
      refine List.nodup_cons.mpr ⟨fun hmem => ?_, ht⟩
      rcases alSet_keys_mem hmem with h1 | h1
      · exact hk h1.symm
      · exact h.1 h1

theorem alDel_keys_sublist [DecidableEq α] (k : α) (l : List (α × β)) :
    ((alDel k l).map Prod.fst).Sublist (l.map Prod.fst) :=
  List.Sublist.map Prod.fst (List.filter_sublist l)

/-- C2.  The claim says one eviction run removes exactly the K oldest
records whose age has reached the residence duration.  Counter-evaluation:
in `exCookieStale` record 0 (age 120) is eligible at now=120 under the
100ns residence and record 1 (age 70) is not, so K = 1; yet the eviction
pass triggered by NotifyAuthRequired removes nothing, because `MinValue`
reads the lastContact of the LAST element of the heap slice (the newest
record, age 70) instead of the heap minimum, and the loop stops at once. -/
theorem cookie_eviction_miss_oldest :
    (cookieNotifyAuthRequired exCookieStale exW exGetReq 120).2.cache = exCookieStale.cache ∧
    (120 : Int) - (derefC exStaleCache.recs 0).lastContact ≥
      exCookieStale.ClientCacheResidence ∧
    (120 : Int) - (derefC exStaleCache.recs 1).lastContact <
      exCookieStale.ClientCacheResidence ∧
    (alGet (str "nonceAnonceAnonc") exStaleCache.clientsByNonce).isSome = true := by
  decide

/-- C3.  The claim says every record inserted into the by-nonce map is
also pushed onto the eviction heap.  Counter-evaluation: a session created
by `Cookie.createSession` is inserted into both maps while the `lru`
priority queue stays empty (the source never pushes it), contradicting the
spec's map–heap correspondence invariant and the destroySession comment
that assumes the record sits in the queue. -/
theorem createSession_no_heap_push :
    ((createSession exCookieNew (str "alice") (str "pw") (some exNonce16) 10).toOption.map
      (fun p => (p.2.cache.clientsByNonce.map Prod.fst, p.2.cache.lru))) =
    some ([exNonce16], []) := by
  decide

/-- C5.  The claim says a record with age < residence is never evicted, in
any reachable state.  Counter-evaluation of a reachable trace: after two
challenges (t=0, t=50) and a successful authorization that refreshes the
first record in place to lastContact=100, eviction at now=160 (residence
100) pops and deletes the record of nonce A even though its age is 60:
the loop checks the stale LAST slice element but pops the heap root, which
the in-place timestamp refresh has made the freshest record. -/
theorem digest_evicts_fresh_record :
    (alGet exNonceA exDigest3.cache.clients).isSome = true ∧
    (derefD exDigest3.cache.recs 0).nonce = exNonceA ∧
    (derefD exDigest3.cache.recs 0).lastContact = 100 ∧
    (160 : Int) - 100 < exDigest3.ClientCacheResidence ∧
    (alGet exNonceA (digestEvict exDigest3 160).cache.clients).isNone = true := by
  constructor
  · rfl
  constructor
  · rfl
  constructor
  · rfl
  constructor
  · decide
  · rfl

/-- C10.  The claim says Logout on a request without the Authorization
cookie terminates normally and still sets the expired cookie.  In the
source the guard `err == nil || token.Value != ""` evaluates `token.Value`
when `err != nil`, i.e. exactly when the returned cookie pointer is nil,
so the call panics (`none`) instead of terminating. -/
theorem cookie_logout_nil_cookie_panics :
    (cookieLogout exCookieNew exW exGetReq).isNone = true := by
  rfl

/-! ### C7: Authorize is total (never panics) -/

theorem parsePair_isSome (part : List Nat) : (parsePair part).isSome := by
  unfold parsePair
  cases h : indexByte part 61 with
  | none => simp
  | some ndx =>
    have hlt := indexByte_lt h
    by_cases h1 : ndx < 1
    · simp [h1]
    · have hle : ndx + 1 ≤ part.length := hlt
      simp [h1, goDrop, hle]

theorem parseParamsGo_isSome (parts : List (List Nat))
    (acc : List (List Nat × List Nat)) : (parseParamsGo acc parts).isSome := by
  induction parts generalizing acc with
  | nil => simp [parseParamsGo]
  | cons part rest ih =>
    unfold parseParamsGo
    cases hp : parsePair part with
    | none => exact absurd hp (Option.isSome_iff_ne_none.mp (parsePair_isSome part))
    | some x =>
      cases x with
      | none => exact ih acc
      | some kv => exact ih (alSet kv.1 kv.2 acc)

theorem digestRequestParams_ne_fault (r : Request) :
    digestRequestParams r ≠ ParseR.fault := by
  intro h
  simp only [digestRequestParams] at h
  split at h
  · exact ParseR.noConfusion h
  split at h
  · exact ParseR.noConfusion h
  rename_i ndx heq
  have hlt := indexByte_lt heq
  split at h
  · exact ParseR.noConfusion h
  split at h
  · exact ParseR.noConfusion h
  split at h
  · rename_i hdrop
    unfold goDrop at hdrop
    rw [if_pos (by omega)] at hdrop
    simp at hdrop
  split at h
  · rename_i hpp
    exact absurd hpp (Option.isSome_iff_ne_none.mp (parseParamsGo_isSome _ []))
  · exact ParseR.noConfusion h

theorem digestAuthorize_isSome (a : Digest) (r : Request) (now : Int) :
    (digestAuthorize a r now).isSome := by
  unfold digestAuthorize
  cases h : digestRequestParams r with
  | fault => exact absurd h (digestRequestParams_ne_fault r)
  | reject => simp
  | ok ps => simp

theorem basicAuthorize_isSome (a : Basic) (r : Request) :
    (basicAuthorize a r).isSome := by
  rw [Option.isSome_iff_ne_none]
  intro h
  simp only [basicAuthorize] at h
  split at h
  · simp at h
  split at h
  · simp at h
  rename_i ndx heq
  have hlt := indexByte_lt heq
  split at h
  · simp at h
  split at h
  · simp at h
  split at h
  · rename_i hdrop
    unfold goDrop at hdrop
    rw [if_pos (by omega)] at hdrop
    simp at hdrop
  split at h
  · simp at h
  rename_i buf hb64
  split at h
  · simp at h
  rename_i ndx2 hc
  have hlt2 := indexByte_lt hc
  split at h
  · simp at h
  split at h
  · rename_i hdrop2
    unfold goDrop at hdrop2
    rw [if_pos (by omega)] at hdrop2
    simp at hdrop2
  split at h
  · simp at h
  · simp at h

theorem cookieAuthorize_isSome (a : Cookie) (r : Request) (now : Int) :
    (cookieAuthorize a r now).isSome := by
  rw [Option.isSome_iff_ne_none]
  intro h
  simp only [cookieAuthorize] at h
  split at h
  · simp at h
  split at h
  · simp at h
  split at h
  · simp at h
  split at h
  · simp at h
  split at h
  · simp at h
  · simp at h

/-- C7.  For every request, however malformed, `Authorize` of the Basic,
Digest and Cookie policies terminates without a panic: `none` stands for a
Go runtime panic in the embedding, and the result is always `some`, with
invalidity signalled only by the empty username. -/
theorem authorize_never_panics (b : Basic) (d : Digest) (c : Cookie)
    (r : Request) (now : Int) :
    (basicAuthorize b r).isSome = true ∧ (digestAuthorize d r now).isSome = true ∧
    (cookieAuthorize c r now).isSome = true :=
  ⟨basicAuthorize_isSome b r, digestAuthorize_isSome d r now,
   cookieAuthorize_isSome c r now⟩

/-! ### C8: failure atomicity of Authorize -/

theorem digestValidate_fail_eq {a : Digest} {r : Request} {now : Int}
    {ps : List (List Nat × List Nat)} {a' : Digest}
    (h : digestValidate a r now ps = ([], a')) : a' = a := by
  simp only [digestValidate] at h
  split at h
  · injection h with _ h2; exact h2.symm
  split at h
  · injection h with _ h2; exact h2.symm
  split at h
  · injection h with _ h2; exact h2.symm
  split at h
  · injection h with _ h2; exact h2.symm
  split at h
  · injection h with _ h2; exact h2.symm
  split at h
  · injection h with _ h2; exact h2.symm
  split at h
  · injection h with _ h2; exact h2.symm
  split at h
  · injection h with _ h2; exact h2.symm
  · injection h with h1 _
    exact absurd h1 (by assumption)

theorem digestAuthorize_fail_eq {a : Digest} {r : Request} {now : Int} {a' : Digest}
    (h : digestAuthorize a r now = some ([], a')) : a' = a := by
  unfold digestAuthorize at h
  split at h
  · exact Option.noConfusion h
  · exact (Prod.mk.injEq _ _ _ _ ▸ Option.some.inj h).2.symm
  · exact digestValidate_fail_eq (Option.some.inj h)

theorem cookieAuthorize_fail_eq {a : Cookie} {r : Request} {now : Int} {a' : Cookie}
    (hne : ∀ v id, alGet v a.cache.clientsByNonce = some id →
      (derefC a.cache.recs id).username ≠ [])
    (h : cookieAuthorize a r now = some ([], a')) : a' = a := by
  simp only [cookieAuthorize] at h
  split at h
  · exact (Prod.mk.injEq _ _ _ _ ▸ Option.some.inj h).2.symm
  split at h
  · exact (Prod.mk.injEq _ _ _ _ ▸ Option.some.inj h).2.symm
  split at h
  · exact (Prod.mk.injEq _ _ _ _ ▸ Option.some.inj h).2.symm
  split at h
  · exact (Prod.mk.injEq _ _ _ _ ▸ Option.some.inj h).2.symm
  split at h
  · exact (Prod.mk.injEq _ _ _ _ ▸ Option.some.inj h).2.symm
  · rename_i id hid
    have h1 := (Prod.mk.injEq _ _ _ _ ▸ Option.some.inj h).1
    exact absurd h1 (hne _ id hid)

/-- C8 (amended).  Whenever `Authorize` returns the empty username the
cached state is exactly as before the call: unconditionally for the Digest
policy, and for the Cookie policy provided every cached record carries a
nonempty username (the counterexample `cookie_authorize_empty_username_mutates`
shows the unconditional claim fails when an authenticator admits the empty
username). -/
theorem authorize_failure_atomic :
    (∀ (a : Digest) (r : Request) (now : Int) (a' : Digest),
       digestAuthorize a r now = some ([], a') → a' = a) ∧
    (∀ (a : Cookie) (r : Request) (now : Int) (a' : Cookie),
       (∀ v id, alGet v a.cache.clientsByNonce = some id →
         (derefC a.cache.recs id).username ≠ []) →
       cookieAuthorize a r now = some ([], a') → a' = a) :=
  ⟨fun _ _ _ _ h => digestAuthorize_fail_eq h,
   fun _ _ _ _ hne h => cookieAuthorize_fail_eq hne h⟩

theorem authorize_failure_atomic_witness :
    exDigestFail = exDigest2 ∧ exCookieFail = exCookieStale :=
  ⟨authorize_failure_atomic.1 exDigest2 exGetReq 100 exDigestFail (by rfl),
   authorize_failure_atomic.2 exCookieStale exGetReq 100 exCookieFail
     (by
       intro v id h
       simp only [exCookieStale, exStaleCache, alGet] at h
       split at h
       · cases h; decide
       split at h
       · cases h; decide
       · exact Option.noConfusion h)
     (by rfl)⟩

/-- C8 counterexample: against a cache holding a record with an empty
username, `Cookie.Authorize` returns the empty string AND refreshes the
record's `lastContact`, so the cached state is not as it was before. -/
theorem cookie_authorize_empty_username_mutates :
    ((cookieAuthorize exCookieEmptyUser exReqNonce16 7).map (fun p => p.1)) = some [] ∧
    ((cookieAuthorize exCookieEmptyUser exReqNonce16 7).map (fun p => p.2.cache)) ≠
      some exCookieEmptyUser.cache := by
  constructor
  · rfl
  · decide

/-- C9.  Whenever nonce generation succeeds, `Digest.NotifyAuthRequired`
sets the `WWW-Authenticate` header to exactly
`Digest realm="<Realm>", nonce="<nonce>", opaque="<opaque>", algorithm="MD5", qop="auth"`
and writes status 401. -/
theorem digest_challenge_shape (a : Digest) (w : ResponseWriter)
    (nonce : List Nat) (now : Int) :
    alGet (str "WWW-Authenticate")
        (digestNotifyAuthRequired a w (some nonce) now).1.headers =
      some (str "Digest realm=\"" ++ a.Realm ++ str "\", nonce=\"" ++ nonce ++
        str "\", opaque=\"" ++ a.opaq ++ str "\", algorithm=\"MD5\", qop=\"auth\"") ∧
    (digestNotifyAuthRequired a w (some nonce) now).1.status = some 401 := by
  constructor
  · simp only [digestNotifyAuthRequired]
    exact alGet_alSet_self _ _ _
  · rfl

/-- C6.  `Digest.Authorize` returns a nonempty username only if the
client's `response` parameter equals the MD5 chain computed from the nine
protocol inputs; and the chain is a fixed hex string for fixed inputs (the
second conjunct checks the RFC 2617 example vector). -/
theorem digest_hash_chain_validation :
    (∀ (a : Digest) (r : Request) (now : Int) (u : List Nat) (a' : Digest)
       (ps : List (List Nat × List Nat)),
       digestAuthorize a r now = some (u, a') → u ≠ [] →
       digestRequestParams r = .ok ps →
       mapGet ps (str "response") =
         digestResponse (mapGet ps (str "username")) a.Realm
           (a.Auth (mapGet ps (str "username"))) r.method r.urlPath
           (mapGet ps (str "nonce")) (mapGet ps (str "nc"))
           (mapGet ps (str "cnonce")) (mapGet ps (str "qop"))) ∧
    digestResponse (str "Mufasa") (str "testrealm@host.com") (str "Circle Of Life")
      (str "GET") (str "/dir/index.html") (str "dcd98b7102dd2f0e8b11d0f600bfb0c093")
      (str "00000001") (str "0a4f113b") (str "auth") =
      str "6629fae49393a05397450978507c4ef1" := by
  constructor
  · intro a r now u a' ps h hu hps
    unfold digestAuthorize at h
    rw [hps] at h
    replace h := Option.some.inj h
    simp only [digestValidate] at h
    split at h
    · injection h with h1 _; exact absurd h1.symm hu
    split at h
    · injection h with h1 _; exact absurd h1.symm hu
    split at h
    · injection h with h1 _; exact absurd h1.symm hu
    split at h
    · injection h with h1 _; exact absurd h1.symm hu
    split at h
    · injection h with h1 _; exact absurd h1.symm hu
    rename_i hresp
    simp only [digestResponse]
    exact (not_ne_iff.mp hresp).symm
  · rfl

theorem digest_hash_chain_validation_witness :
    mapGet exPs (str "response") =
      digestResponse (mapGet exPs (str "username")) exDigest2.Realm
        (exDigest2.Auth (mapGet exPs (str "username"))) exReq1.method exReq1.urlPath
        (mapGet exPs (str "nonce")) (mapGet exPs (str "nc"))
        (mapGet exPs (str "cnonce")) (mapGet exPs (str "qop")) :=
  digest_hash_chain_validation.1 exDigest2 exReq1 100 (str "user") exDigest3 exPs
    (by rfl) (by decide) (by rfl)

/-! ### C1: replay rejection through the monotone nc counter -/

theorem digestAuthorize_success_state {a a' : Digest} {r : Request} {now : Int}
    {u : List Nat} {ps : List (List Nat × List Nat)} {c : Nat}
    (h : digestAuthorize a r now = some (u, a')) (hu : u ≠ [])
    (hps : digestRequestParams r = .ok ps)
    (hc : parseUintHex64 (mapGet ps (str "nc")) = some c) :
    ∃ id, alGet (mapGet ps (str "nonce")) a'.cache.clients = some id ∧
      (derefD a'.cache.recs id).numContacts = c := by
  unfold digestAuthorize at h
  rw [hps] at h
  replace h := Option.some.inj h
  simp only [digestValidate] at h
  split at h
  · injection h with h1 _; exact absurd h1.symm hu
  split at h
  · injection h with h1 _; exact absurd h1.symm hu
  split at h
  · injection h with h1 _; exact absurd h1.symm hu
  split at h
  · injection h with h1 _; exact absurd h1.symm hu
  split at h
  · injection h with h1 _; exact absurd h1.symm hu
  split at h
  · injection h with h1 _; exact absurd h1.symm hu
  rename_i numC hnum
  split at h
  · injection h with h1 _; exact absurd h1.symm hu
  rename_i id hid
  split at h
  · injection h with h1 _; exact absurd h1.symm hu
  injection h with h1 h2
  have hcc : numC = c := by
    rw [hnum] at hc
    exact Option.some.inj hc
  subst hcc
  subst h2
  exact ⟨id, hid, by simp [derefD, alGet_alSet_self]⟩

theorem digestAuthorize_reject_le {a : Digest} {n : List Nat} {id c : Nat}
    (hid : alGet n a.cache.clients = some id)
    (hstored : (derefD a.cache.recs id).numContacts = c) (hpos : 0 < c)
    (r : Request) (now : Int) (ps : List (List Nat × List Nat)) (v : Nat)
    (hps : digestRequestParams r = .ok ps)
    (hn : mapGet ps (str "nonce") = n)
    (hv : parseUintHex64 (mapGet ps (str "nc")) = some v) (hle : v ≤ c) :
    digestAuthorize a r now = some ([], a) := by
  unfold digestAuthorize
  rw [hps]
  refine congrArg some ?_
  simp only [digestValidate]
  split
  · rfl
  split
  · rfl
  split
  · rfl
  split
  · rfl
  split
  · rfl
  split
  · rfl
  rename_i v' hv'
  split
  · rfl
  rename_i id' hid'
  split
  · rfl
  · rename_i hcond
    exfalso
    rw [hv] at hv'
    have hvv : v = v' := Option.some.inj hv'
    rw [hn, hid] at hid'
    have hii : id = id' := Option.some.inj hid'
    subst hvv
    subst hii
    rw [hstored] at hcond
    exact hcond ⟨by omega, hle⟩

theorem digestAuthorize_accept_gt {a : Digest} {n : List Nat} {id c : Nat}
    (hid : alGet n a.cache.clients = some id)
    (hstored : (derefD a.cache.recs id).numContacts = c)
    (r : Request) (now : Int) (ps : List (List Nat × List Nat)) (v : Nat)
    (hps : digestRequestParams r = .ok ps)
    (hn : mapGet ps (str "nonce") = n)
    (hv : parseUintHex64 (mapGet ps (str "nc")) = some v) (hgt : c < v)
    (hopq : mapGet ps (str "opaque") = a.opaq)
    (halg : mapGet ps (str "algorithm") = str "MD5")
    (hqop : mapGet ps (str "qop") = str "auth")
    (huri : mapGet ps (str "uri") = r.urlPath)
    (husr : ¬ mapGet ps (str "username") = [])
    (hpwd : ¬ a.Auth (mapGet ps (str "username")) = [])
    (hresp : mapGet ps (str "response") =
      digestResponse (mapGet ps (str "username")) a.Realm
        (a.Auth (mapGet ps (str "username"))) r.method r.urlPath n
        (mapGet ps (str "nc")) (mapGet ps (str "cnonce")) (mapGet ps (str "qop"))) :
    ∃ a2, digestAuthorize a r now = some (mapGet ps (str "username"), a2) := by
  refine ⟨{ a with cache := { a.cache with
    recs := alSet id { derefD a.cache.recs id with numContacts := v, lastContact := now }
      a.cache.recs } }, ?_⟩
  unfold digestAuthorize
  rw [hps]
  refine congrArg some ?_
  simp only [digestValidate]
  rw [if_neg (by simp [hopq, halg, hqop])]
  rw [if_neg (by simp [huri])]
  rw [if_neg husr]
  rw [if_neg hpwd]
  rw [if_neg (by rw [not_ne_iff, hresp]; simp only [digestResponse, hn])]
  rw [hv]
  split
  · rename_i heq
    exact absurd heq (by simp)
  rename_i v' hv'
  have hvv : v' = v := Option.some.inj hv'.symm
  subst hvv
  rw [hn, hid]
  split
  · rename_i heq
    exact absurd heq (by simp)
  rename_i id' hid'
  have hii : id' = id := Option.some.inj hid'.symm
  subst hii
  rw [hstored]
  rw [if_neg (by rintro ⟨_, hvc⟩; omega)]

/-- C1.  Once an `Authorize` call has succeeded whose `nc` parameter
parses (as hexadecimal) to `c > 0`, the record of the presented nonce
stores `c`, and on the resulting state: every request presenting the same
nonce with an `nc` value at most `c` is answered with the empty username
and an unchanged state, while an otherwise-valid request (matching opaque,
algorithm, qop and uri, known user with a password, correct MD5 response
chain) whose `nc` value exceeds `c` succeeds and returns its username. -/
theorem digest_replay_rejection (a0 a1 : Digest) (r0 : Request) (now0 : Int)
    (u0 : List Nat) (ps0 : List (List Nat × List Nat)) (n : List Nat) (c : Nat)
    (hsucc : digestAuthorize a0 r0 now0 = some (u0, a1)) (hu : u0 ≠ [])
    (hps0 : digestRequestParams r0 = .ok ps0)
    (hn : mapGet ps0 (str "nonce") = n)
    (hc : parseUintHex64 (mapGet ps0 (str "nc")) = some c) (hpos : 0 < c) :
    (∀ (r : Request) (now : Int) (ps : List (List Nat × List Nat)) (v : Nat),
       digestRequestParams r = .ok ps → mapGet ps (str "nonce") = n →
       parseUintHex64 (mapGet ps (str "nc")) = some v → v ≤ c →
       digestAuthorize a1 r now = some ([], a1)) ∧
    (∀ (r : Request) (now : Int) (ps : List (List Nat × List Nat)) (v : Nat),
       digestRequestParams r = .ok ps → mapGet ps (str "nonce") = n →
       parseUintHex64 (mapGet ps (str "nc")) = some v → c < v →
       mapGet ps (str "opaque") = a1.opaq →
       mapGet ps (str "algorithm") = str "MD5" →
       mapGet ps (str "qop") = str "auth" →
       mapGet ps (str "uri") = r.urlPath →
       ¬ mapGet ps (str "username") = [] →
       ¬ a1.Auth (mapGet ps (str "username")) = [] →
       mapGet ps (str "response") =
         digestResponse (mapGet ps (str "username")) a1.Realm
           (a1.Auth (mapGet ps (str "username"))) r.method r.urlPath n
           (mapGet ps (str "nc")) (mapGet ps (str "cnonce")) (mapGet ps (str "qop")) →
       ∃ a2, digestAuthorize a1 r now = some (mapGet ps (str "username"), a2)) := by
  obtain ⟨id, hid, hstored⟩ := digestAuthorize_success_state hsucc hu hps0 hc
  rw [hn] at hid
  constructor
  · intro r now ps v hps hn' hv hle
    exact digestAuthorize_reject_le hid hstored hpos r now ps v hps hn' hv hle
  · intro r now ps v hps hn' hv hgt hopq halg hqop huri husr hpwd hresp
    exact digestAuthorize_accept_gt hid hstored r now ps v hps hn' hv hgt hopq
      halg hqop huri husr hpwd hresp

theorem digest_replay_rejection_witness :
    digestAuthorize exDigest3 exReqReplay 110 = some ([], exDigest3) ∧
    (∃ a2, digestAuthorize exDigest3 exReqNext 120 = some (str "user", a2)) := by
  have h := digest_replay_rejection exDigest2 exDigest3 exReq1 100 (str "user")
    exPs exNonceA 1 (by rfl) (by decide) (by rfl) (by rfl) (by rfl) (by decide)
  refine ⟨h.1 exReqReplay 110 exPsReplay 1 (by rfl) (by rfl) (by rfl) (by decide), ?_⟩
  have h2 := h.2 exReqNext 120 exPsNext 2 (by rfl) (by rfl) (by rfl) (by decide)
    (by rfl) (by rfl) (by rfl) (by rfl) (by decide) (by decide) (by rfl)
  exact h2

theorem createSession_found {a : Cookie} {u p g : List Nat} {t : Int} {id : Nat}
    (hauth : a.Auth u p = true) (hl : alGet u a.cache.clientsByUser = some id) :
    createSession a u p (some g) t =
      .ok ((derefC a.cache.recs id).nonce, refreshedAt a id t) := by
  simp only [createSession, hauth, hl, refreshedAt]
  simp

theorem createSession_new {a : Cookie} {u p g : List Nat} {t : Int}
    (hauth : a.Auth u p = true) (hl : alGet u a.cache.clientsByUser = none) :
    createSession a u p (some g) t = .ok (g, insertedAt a u g t) := by
  simp only [createSession, hauth, hl, insertedAt]
  simp

theorem cookieAuthorize_byUser_eq {a a' : Cookie} {r : Request} {now : Int}
    {u : List Nat} (h : cookieAuthorize a r now = some (u, a')) :
    a'.cache.clientsByUser = a.cache.clientsByUser := by
  simp only [cookieAuthorize] at h
  split at h
  · cases Option.some.inj h; rfl
  split at h
  · cases Option.some.inj h; rfl
  split at h
  · cases Option.some.inj h; rfl
  split at h
  · cases Option.some.inj h; rfl
  split at h
  · cases Option.some.inj h; rfl
  · cases Option.some.inj h; rfl

theorem createSession_byUser {a a' : Cookie} {u p n : List Nat}
    {gen : Option (List Nat)} {now : Int}
    (h : createSession a u p gen now = .ok (n, a')) :
    a'.cache.clientsByUser = a.cache.clientsByUser ∨
    a'.cache.clientsByUser = alSet u a.cache.nextId a.cache.clientsByUser := by
  simp only [createSession] at h
  split at h
  · exact Except.noConfusion h
  split at h
  · exact Except.noConfusion h
  split at h
  · cases Except.ok.inj h; exact Or.inl rfl
  · cases Except.ok.inj h; exact Or.inr rfl

theorem reach_byUser_nodup {a : Cookie} (h : CookieReach a) :
    (a.cache.clientsByUser.map Prod.fst).Nodup := by
  induction h with
  | init realm loginPage auth => simp [NewCookie]
  | create hr hc ih =>
    rcases createSession_byUser hc with he | he
    · rwa [he]
    · rw [he]
      exact alSet_keys_nodup _ _ _ ih
  | authorize hr hc ih => rwa [cookieAuthorize_byUser_eq hc]
  | destroy nonce hr ih =>
    unfold destroySession
    split
    · exact ih
    · exact List.Nodup.sublist (alDel_keys_sublist _ _) ih

/-- C4.  With credentials the authenticator accepts, two consecutive
`createSession` calls both succeed and return the identical nonce (the
second finds the by-user record and re-extends it); and in every state
reachable by createSession / Authorize / destroySession sequences the
by-user map holds at most one record per username. -/
theorem cookie_session_idempotent_unique :
    (∀ (a : Cookie) (u p g1 g2 : List Nat) (t1 t2 : Int), a.Auth u p = true →
       ∃ n1 a1, createSession a u p (some g1) t1 = .ok (n1, a1) ∧
         ∃ n2 a2, createSession a1 u p (some g2) t2 = .ok (n2, a2) ∧ n2 = n1) ∧
    (∀ a : Cookie, CookieReach a →
       (a.cache.clientsByUser.map Prod.fst).Nodup) := by
  constructor
  · intro a u p g1 g2 t1 t2 hauth
    cases hl : alGet u a.cache.clientsByUser with
    | some id =>
      refine ⟨_, _, createSession_found (g := g1) (t := t1) hauth hl, ?_⟩
      have h2 := createSession_found (a := refreshedAt a id t1) (g := g2) (t := t2)
        hauth hl
      refine ⟨_, _, h2, ?_⟩
      simp [refreshedAt, derefC, alGet_alSet_self]
    | none =>
      refine ⟨_, _, createSession_new (g := g1) (t := t1) hauth hl, ?_⟩
      have hl2 : alGet u (insertedAt a u g1 t1).cache.clientsByUser =
          some a.cache.nextId := alGet_alSet_self _ _ _
      have h2 := createSession_found (a := insertedAt a u g1 t1) (g := g2) (t := t2)
        hauth hl2
      refine ⟨_, _, h2, ?_⟩
      simp [insertedAt, derefC, alGet_alSet_self]
  · intro a hr
    exact reach_byUser_nodup hr

theorem cookie_session_idempotent_unique_witness :
    (∃ n1 a1, createSession exCookieNew (str "bob") (str "pw") (some exNonce16) 1 =
        .ok (n1, a1) ∧
      ∃ n2 a2, createSession a1 (str "bob") (str "pw") (some exNonceB) 2 =
        .ok (n2, a2) ∧ n2 = n1) ∧
    (exCookieEmptyUser.cache.clientsByUser.map Prod.fst).Nodup :=
  ⟨cookie_session_idempotent_unique.1 exCookieNew (str "bob") (str "pw")
      exNonce16 exNonceB 1 2 (by rfl),
   cookie_session_idempotent_unique.2 exCookieEmptyUser
     (@CookieReach.create exCookieNew [] (str "pw") (some exNonce16) 5 exNonce16
       exCookieEmptyUser
       (CookieReach.init (str "r") (str "/login") (fun _ _ => true))
       (by rfl))⟩

end Httpauth
